import Mathlib

/-!
Shallow embedding of the per-game lifecycle/ledger state machine of
`packages/hardhat/contracts/YourContract.sol` (the multi-game contract with
creator close, abandonment timeout and player withdrawal).

Addresses and bytes32 values are modelled as `Nat` (0 is the zero
address / zero hash).  `keccak256(abi.encodePacked x)` over one and two
words is modelled by abstract hash functions `kec : Nat → Nat` and
`kec2 : Nat → Nat → Nat` passed as parameters.  Each public mutating
function becomes a pure function on a `Game` record returning
`Except Err _`; a Solidity `require` failure is an `Except.error`, which —
matching revert semantics — leaves the caller with the pre-state.
`payout` and `playerWithdraw` additionally return the ordered list of
`Action`s the call performs: a single `Action.stateCommit` marking the
point at which all of the call's storage writes are complete, followed by
the external value transfers in the order the code issues them.
-/

namespace VerifiableGame

/-- Error taxonomy of the spec (§7): authorization, lifecycle state,
input validation, and zero-amount arithmetic rejections. -/
inductive Err where
  | auth
  | state
  | validation
  | arith
deriving DecidableEq, Repr

/-- One observable action of a settlement call: `stateCommit` marks the
point where the call's storage writes are done; `xfer r a` is an external
transfer of amount `a` to recipient `r`. -/
inductive Action where
  | stateCommit
  | xfer (recipient : Nat) (amount : Nat)
deriving DecidableEq, Repr

/-- Timeout after close before players may withdraw (300 s in the source). -/
def PAYOUT_TIMEOUT : Nat := 300

/-- Timeout after open before anyone may close an abandoned game (150 s). -/
def CREATOR_TIMEOUT : Nat := 150

/-- The per-game storage of the `Game` struct in the source.  `open` is a
Lean keyword, hence the field is named `open'`.  The two Solidity
mappings `hasJoined` and `hasWithdrawn` are total boolean functions on
addresses. -/
structure Game where
  gamemaster : Nat
  creator : Nat
  stakeAmount : Nat
  open' : Bool
  players : List Nat
  hasJoined : Nat → Bool
  hasOpened : Bool
  hasClosed : Bool
  committedHash : Nat
  commitBlockNumber : Nat
  commitBlockHash : Nat
  revealValue : Nat
  randomHash : Nat
  hasCommitted : Bool
  hasRevealed : Bool
  hasStoredBlockHash : Bool
  mapSize : Nat
  url : String
  winners : List Nat
  payoutAmount : Nat
  hasPaidOut : Bool
  startTime : Nat
  openTime : Nat
  hasWithdrawn : Nat → Bool
  canWithdraw : Bool

/-- `createGame(_gamemaster, _stakeAmount)` from the source: rejects a zero
gamemaster and a zero stake, otherwise yields a fresh game record with the
caller as creator and every other field at its default value. -/
def createGame (sender gm stake : Nat) : Except Err Game :=
  if gm = 0 then .error .validation
  else if stake = 0 then .error .validation
  else .ok
    { gamemaster := gm
      creator := sender
      stakeAmount := stake
      open' := false
      players := []
      hasJoined := fun _ => false
      hasOpened := false
      hasClosed := false
      committedHash := 0
      commitBlockNumber := 0
      commitBlockHash := 0
      revealValue := 0
      randomHash := 0
      hasCommitted := false
      hasRevealed := false
      hasStoredBlockHash := false
      mapSize := 0
      url := ""
      winners := []
      payoutAmount := 0
      hasPaidOut := false
      startTime := 0
      openTime := 0
      hasWithdrawn := fun _ => false
      canWithdraw := false }

/-- `commitHash(gameId, _hash)`: gamemaster only, at most once; records the
hash and the next block number and atomically opens the game, stamping
`openTime` with the current block timestamp. -/
def commitHash (sender h blockNumber timestamp : Nat) (g : Game) :
    Except Err Game :=
  if g.gamemaster = 0 then .error .validation
  else if sender ≠ g.gamemaster then .error .auth
  else if g.hasCommitted then .error .state
  else .ok { g with
    committedHash := h
    commitBlockNumber := blockNumber + 1
    hasCommitted := true
    hasRevealed := false
    open' := true
    hasOpened := true
    openTime := timestamp }

/-- `storeCommitBlockHash(gameId, _url)`: gamemaster only, once, after the
commit block has been mined; `bh` is the chain's `blockhash` of the commit
block, which the EVM reports as 0 when unavailable. -/
def storeCommitBlockHash (sender : Nat) (u : String) (blockNumber bh : Nat)
    (g : Game) : Except Err Game :=
  if g.gamemaster = 0 then .error .validation
  else if sender ≠ g.gamemaster then .error .auth
  else if ¬ g.hasCommitted then .error .state
  else if g.hasStoredBlockHash then .error .state
  else if blockNumber < g.commitBlockNumber then .error .state
  else if u = "" then .error .validation
  else if bh = 0 then .error .state
  else .ok { g with
    commitBlockHash := bh
    url := u
    hasStoredBlockHash := true }

/-- `joinGame(gameId)`: game must exist and be open, the attached value
must equal the stake exactly, and the caller must not already be a member;
appends the caller to `players` and marks the membership mapping. -/
def joinGame (sender value : Nat) (g : Game) : Except Err Game :=
  if g.gamemaster = 0 then .error .validation
  else if ¬ g.open' then .error .state
  else if value ≠ g.stakeAmount then .error .validation
  else if g.hasJoined sender then .error .state
  else .ok { g with
    players := g.players ++ [sender]
    hasJoined := fun p => if p = sender then true else g.hasJoined p }

/-- `closeGame(gameId)`: valid only from the open state; authorized for the
creator, or for anyone once the game is abandoned (`openTime > 0`, the
creator timeout has elapsed, and at least one player joined).  Freezes
`mapSize = 1 + 4·|players|` and stamps `startTime`. -/
def closeGame (sender timestamp : Nat) (g : Game) : Except Err Game :=
  if g.gamemaster = 0 then .error .validation
  else if ¬ g.hasOpened then .error .state
  else if g.hasClosed then .error .state
  else if ¬ g.open' then .error .state
  else if sender = g.creator ∨
      (0 < g.openTime ∧ g.openTime + CREATOR_TIMEOUT ≤ timestamp ∧
        g.players.length ≠ 0) then
    .ok { g with
      open' := false
      hasClosed := true
      startTime := timestamp
      mapSize := 1 + g.players.length * 4 }
  else .error .auth

/-- `revealHash(gameId, _reveal)`: gamemaster only, after commit, before
any reveal, at or after the commit block; the secret must hash to the
committed hash and the stored commit block hash must be present; derives
`randomHash = kec2 commitBlockHash secret`. -/
def revealHash (kec : Nat → Nat) (kec2 : Nat → Nat → Nat)
    (sender r blockNumber : Nat) (g : Game) : Except Err Game :=
  if g.gamemaster = 0 then .error .validation
  else if sender ≠ g.gamemaster then .error .auth
  else if ¬ g.hasCommitted then .error .state
  else if g.hasRevealed then .error .state
  else if blockNumber < g.commitBlockNumber then .error .state
  else if kec r ≠ g.committedHash then .error .validation
  else if g.commitBlockHash = 0 then .error .state
  else .ok { g with
    revealValue := r
    hasRevealed := true
    randomHash := kec2 g.commitBlockHash r }

/-- `payout(gameId, _winners)`: gamemaster only; winners non-empty, at
least one player, not already paid out, withdrawal mode not active; pool =
stake·|players|, cut = pool/100, winners pool = pool − cut, per-winner =
winnersPool/|winners| which must be positive; all winners non-zero.  On
success it appends the winners, records the per-winner amount, sets
`hasPaidOut`, and then transfers the cut (skipped when zero) followed by
each winner's amount — the returned trace records that order. -/
def payout (sender : Nat) (ws : List Nat) (g : Game) :
    Except Err (Game × List Action) :=
  if g.gamemaster = 0 then .error .validation
  else if sender ≠ g.gamemaster then .error .auth
  else if ws.length = 0 then .error .validation
  else if g.players.length = 0 then .error .state
  else if g.hasPaidOut then .error .state
  else if g.canWithdraw then .error .state
  else
    let pool := g.stakeAmount * g.players.length
    if pool = 0 then .error .validation
    else
      let cut := pool / 100
      let winnersPool := pool - cut
      let amountPerWinner := winnersPool / ws.length
      if amountPerWinner = 0 then .error .arith
      else if ws.any (fun w => w = 0) then .error .validation
      else .ok
        ({ g with
            winners := g.winners ++ ws
            payoutAmount := amountPerWinner
            hasPaidOut := true },
          Action.stateCommit ::
            ((if 0 < cut then [Action.xfer g.gamemaster cut] else []) ++
              ws.map (fun w => Action.xfer w amountPerWinner)))

/-- `playerWithdraw(gameId)`: game closed, caller a joined player who has
not yet withdrawn, `startTime` set, and either withdrawal mode already
active or the payout timeout elapsed with no payout.  The first withdrawal
flips `canWithdraw` and sets `hasPaidOut` to block payout; the caller is
marked withdrawn and then their exact stake is transferred — the trace
records the writes-then-transfer order. -/
def playerWithdraw (sender timestamp : Nat) (g : Game) :
    Except Err (Game × List Action) :=
  if g.gamemaster = 0 then .error .validation
  else if ¬ g.hasClosed then .error .state
  else if ¬ g.hasJoined sender then .error .state
  else if g.hasWithdrawn sender then .error .state
  else if g.startTime = 0 then .error .state
  else if ¬ (g.canWithdraw ∨
      (g.startTime + PAYOUT_TIMEOUT ≤ timestamp ∧ ¬ g.hasPaidOut)) then
    .error .state
  else
    let g1 := if g.canWithdraw then g
      else { g with canWithdraw := true, hasPaidOut := true }
    .ok ({ g1 with
        hasWithdrawn := fun p => if p = sender then true else g.hasWithdrawn p },
      [Action.stateCommit, Action.xfer sender g.stakeAmount])

/-! ### Ledger world and reachability of a single game -/

/-- A game together with ledger ghost state: `escrow` is the net value the
contract holds for this game (joins pay in, settlements pay out), `paid`
the total ever disbursed by `payout`, `withdrawn` the total ever returned
to players by `playerWithdraw`. -/
structure World where
  g : Game
  escrow : Int
  paid : Nat
  withdrawn : Nat

/-- Total value sent out by a trace of actions. -/
def outflow : List Action → Nat
  | [] => 0
  | Action.stateCommit :: rest => outflow rest
  | Action.xfer _ a :: rest => a + outflow rest

/-- Total value a trace of actions sends to recipient `a`. -/
def outflowTo (a : Nat) : List Action → Nat
  | [] => 0
  | Action.stateCommit :: rest => outflowTo a rest
  | Action.xfer r v :: rest => (if r = a then v else 0) + outflowTo a rest

/-- One successful public mutating call on the game, with its effect on
the ledger: a join escrows the attached value, a settlement call moves its
traced outflow out of escrow. -/
inductive Step (kec : Nat → Nat) (kec2 : Nat → Nat → Nat) :
    World → World → Prop
  | commit (w : World) (s h bn t : Nat) (g' : Game)
      (hok : commitHash s h bn t w.g = .ok g') :
      Step kec kec2 w ⟨g', w.escrow, w.paid, w.withdrawn⟩
  | storeBlock (w : World) (s : Nat) (u : String) (bn bh : Nat) (g' : Game)
      (hok : storeCommitBlockHash s u bn bh w.g = .ok g') :
      Step kec kec2 w ⟨g', w.escrow, w.paid, w.withdrawn⟩
  | join (w : World) (s v : Nat) (g' : Game)
      (hok : joinGame s v w.g = .ok g') :
      Step kec kec2 w ⟨g', w.escrow + (v : Int), w.paid, w.withdrawn⟩
  | close (w : World) (s t : Nat) (g' : Game)
      (hok : closeGame s t w.g = .ok g') :
      Step kec kec2 w ⟨g', w.escrow, w.paid, w.withdrawn⟩
  | reveal (w : World) (s r bn : Nat) (g' : Game)
      (hok : revealHash kec kec2 s r bn w.g = .ok g') :
      Step kec kec2 w ⟨g', w.escrow, w.paid, w.withdrawn⟩
  | payoutStep (w : World) (s : Nat) (ws : List Nat) (g' : Game)
      (tr : List Action) (hok : payout s ws w.g = .ok (g', tr)) :
      Step kec kec2 w
        ⟨g', w.escrow - (outflow tr : Int), w.paid + outflow tr, w.withdrawn⟩
  | withdrawStep (w : World) (s t : Nat) (g' : Game) (tr : List Action)
      (hok : playerWithdraw s t w.g = .ok (g', tr)) :
      Step kec kec2 w
        ⟨g', w.escrow - (outflow tr : Int), w.paid, w.withdrawn + outflow tr⟩

/-- Reachable worlds of one game: a freshly created game with an empty
ledger, closed under the public calls. -/
inductive Reach (kec : Nat → Nat) (kec2 : Nat → Nat → Nat) : World → Prop
  | init (sender gm stake : Nat) (g : Game)
      (hok : createGame sender gm stake = .ok g) :
      Reach kec kec2 ⟨g, 0, 0, 0⟩
  | step (w w' : World) (hw : Reach kec kec2 w)
      (hs : Step kec kec2 w w') : Reach kec kec2 w'

/-- The inductive ledger invariant of one game.  `conservation` is the
fund-conservation equation; the remaining fields are the supporting facts
that make it inductive and force the escrow to stay non-negative. -/
structure Inv (w : World) : Prop where
  opened_eq : w.g.hasOpened = w.g.hasCommitted
  open_committed : w.g.open' = true → w.g.hasCommitted = true
  closed_opened : w.g.hasClosed = true → w.g.hasOpened = true
  closed_not_open : w.g.hasClosed = true → w.g.open' = false
  joined_mem : ∀ p, w.g.hasJoined p = true ↔ p ∈ w.g.players
  nodup : w.g.players.Nodup
  withdrawn_eq : w.withdrawn = w.g.stakeAmount *
    (w.g.players.filter (fun p => w.g.hasWithdrawn p)).length
  cw_closed : w.g.canWithdraw = true → w.g.hasClosed = true
  cw_paidflag : w.g.canWithdraw = true → w.g.hasPaidOut = true
  cw_paid_zero : w.g.canWithdraw = true → w.paid = 0
  not_paid : w.g.hasPaidOut = false → w.paid = 0
  no_wd : w.g.canWithdraw = false → ∀ p, w.g.hasWithdrawn p = false
  paid_le : w.g.hasPaidOut = true → w.g.canWithdraw = true ∨
    w.paid ≤ w.g.stakeAmount * w.g.players.length
  conservation : w.escrow + (w.paid : Int) + (w.withdrawn : Int) =
    ((w.g.stakeAmount * w.g.players.length : Nat) : Int)

/-! ### Sample states used by the witnesses -/

/-- Sample one-word hash: successor, so `kecS 99 = 100`. -/
def kecS : Nat → Nat := fun n => n + 1

/-- Sample two-word hash. -/
def kec2S : Nat → Nat → Nat := fun a b => a * 1000 + b

/-- The game produced by `createGame 1 2 5`. -/
def wG0 : Game :=
  { gamemaster := 2, creator := 1, stakeAmount := 5, open' := false,
    players := [], hasJoined := fun _ => false, hasOpened := false,
    hasClosed := false, committedHash := 0, commitBlockNumber := 0,
    commitBlockHash := 0, revealValue := 0, randomHash := 0,
    hasCommitted := false, hasRevealed := false, hasStoredBlockHash := false,
    mapSize := 0, url := "", winners := [], payoutAmount := 0,
    hasPaidOut := false, startTime := 0, openTime := 0,
    hasWithdrawn := fun _ => false, canWithdraw := false }

/-- `wG0` after `commitHash 2 9 10 20`. -/
def wG1 : Game :=
  { wG0 with
      committedHash := 9, commitBlockNumber := 11, hasCommitted := true,
      hasRevealed := false, open' := true, hasOpened := true,
      openTime := 20 }

/-- `wG1` after `joinGame 7 5`. -/
def wG2 : Game :=
  { wG1 with
      players := [7],
      hasJoined := fun p => if p = 7 then true else false }

/-- The ledger world after create, commit and one join. -/
def wWit : World := ⟨wG2, 5, 0, 0⟩

/-- A committed and open game whose committed hash matches `kecS 99`. -/
def gOpen : Game :=
  { gamemaster := 2, creator := 1, stakeAmount := 5, open' := true,
    players := [], hasJoined := fun _ => false, hasOpened := true,
    hasClosed := false, committedHash := 100, commitBlockNumber := 3,
    commitBlockHash := 77, revealValue := 0, randomHash := 0,
    hasCommitted := true, hasRevealed := false, hasStoredBlockHash := true,
    mapSize := 0, url := "u", winners := [], payoutAmount := 0,
    hasPaidOut := false, startTime := 0, openTime := 50,
    hasWithdrawn := fun _ => false, canWithdraw := false }

/-- A closed game with three staked players (the spec's worked example:
stake 1000, three joins, pool 3000). -/
def gClosed3 : Game :=
  { gamemaster := 2, creator := 1, stakeAmount := 1000, open' := false,
    players := [11, 12, 13],
    hasJoined := fun p => decide (p = 11 ∨ p = 12 ∨ p = 13),
    hasOpened := true, hasClosed := true, committedHash := 100,
    commitBlockNumber := 3, commitBlockHash := 77, revealValue := 0,
    randomHash := 0, hasCommitted := true, hasRevealed := false,
    hasStoredBlockHash := true, mapSize := 13, url := "u", winners := [],
    payoutAmount := 0, hasPaidOut := false, startTime := 100,
    openTime := 50, hasWithdrawn := fun _ => false, canWithdraw := false }

/-- `gClosed3` after a successful payout. -/
def gPaid : Game := { gClosed3 with hasPaidOut := true }

/-- A closed two-player game used for the unchecked-winners witness. -/
def gTwo : Game := { gClosed3 with players := [11, 12] }

/-- `gClosed3` as recorded after `payout 2 [21, 22]`. -/
def gPaidOut3 : Game :=
  { gClosed3 with
      winners := [21, 22], payoutAmount := 1485, hasPaidOut := true }

/-- The action trace of `payout 2 [21, 22]` on `gClosed3`. -/
def tr3 : List Action :=
  [Action.stateCommit, Action.xfer 2 30, Action.xfer 21 1485,
    Action.xfer 22 1485]

/-- An open game with one player, opened at time 50, for the C6 witness. -/
def gAband : Game :=
  { gOpen with players := [11], hasJoined := fun p => decide (p = 11) }

/-- The open sample game after player 7 joins. -/
def gJoined : Game :=
  { gOpen with
      players := [7],
      hasJoined := fun p => if p = 7 then true else false }

/-- `gClosed3` after player 11 withdraws at time 500. -/
def gWd : Game :=
  { gClosed3 with
      canWithdraw := true, hasPaidOut := true,
      hasWithdrawn := fun p => if p = 11 then true else false }

/-- `gTwo` after paying the non-member address 7 listed twice. -/
def gTwoPaid : Game :=
  { gTwo with
      winners := [7, 7], payoutAmount := 990, hasPaidOut := true }

/-- The trace of `payout 2 [7, 7]` on `gTwo`. -/
def trTwo : List Action :=
  [Action.stateCommit, Action.xfer 2 20, Action.xfer 7 990,
    Action.xfer 7 990]

/-! ### Theorems -/

/-! ### Inversion lemmas: exact success characterization of each call -/

theorem createGame_ok_iff {sender gm stake : Nat} {g : Game} :
    createGame sender gm stake = .ok g ↔
      gm ≠ 0 ∧ stake ≠ 0 ∧
      { gamemaster := gm, creator := sender, stakeAmount := stake,
            open' := false, players := [], hasJoined := fun _ => false,
            hasOpened := false, hasClosed := false, committedHash := 0,
            commitBlockNumber := 0, commitBlockHash := 0, revealValue := 0,
            randomHash := 0, hasCommitted := false, hasRevealed := false,
            hasStoredBlockHash := false, mapSize := 0, url := "",
            winners := [], payoutAmount := 0, hasPaidOut := false,
            startTime := 0, openTime := 0, hasWithdrawn := fun _ => false,
            canWithdraw := false } = g := by
  simp only [createGame]
  split_ifs <;> simp_all

theorem commitHash_ok_iff {sender h blockNumber timestamp : Nat}
    {g g' : Game} :
    commitHash sender h blockNumber timestamp g = .ok g' ↔
      g.gamemaster ≠ 0 ∧ sender = g.gamemaster ∧ g.hasCommitted = false ∧
      { g with
        committedHash := h
        commitBlockNumber := blockNumber + 1
        hasCommitted := true
        hasRevealed := false
        open' := true
        hasOpened := true
        openTime := timestamp } = g' := by
  simp only [commitHash]
  split_ifs <;> simp_all

theorem storeCommitBlockHash_ok_iff {sender blockNumber bh : Nat}
    {u : String} {g g' : Game} :
    storeCommitBlockHash sender u blockNumber bh g = .ok g' ↔
      g.gamemaster ≠ 0 ∧ sender = g.gamemaster ∧ g.hasCommitted = true ∧
      g.hasStoredBlockHash = false ∧ g.commitBlockNumber ≤ blockNumber ∧
      u ≠ "" ∧ bh ≠ 0 ∧
      { g with
        commitBlockHash := bh
        url := u
        hasStoredBlockHash := true } = g' := by
  simp only [storeCommitBlockHash]
  split_ifs <;> simp_all

theorem joinGame_ok_iff {sender value : Nat} {g g' : Game} :
    joinGame sender value g = .ok g' ↔
      g.gamemaster ≠ 0 ∧ g.open' = true ∧ value = g.stakeAmount ∧
      g.hasJoined sender = false ∧
      { g with
        players := g.players ++ [sender]
        hasJoined := fun p => if p = sender then true else g.hasJoined p } =
        g' := by
  simp only [joinGame]
  split_ifs <;> simp_all

theorem closeGame_ok_iff {sender timestamp : Nat} {g g' : Game} :
    closeGame sender timestamp g = .ok g' ↔
      g.gamemaster ≠ 0 ∧ g.hasOpened = true ∧ g.hasClosed = false ∧
      g.open' = true ∧
      (sender = g.creator ∨
        (0 < g.openTime ∧ g.openTime + CREATOR_TIMEOUT ≤ timestamp ∧
          g.players.length ≠ 0)) ∧
      { g with
        open' := false
        hasClosed := true
        startTime := timestamp
        mapSize := 1 + g.players.length * 4 } = g' := by
  simp only [closeGame]
  split_ifs <;> simp_all

theorem revealHash_ok_iff {kec : Nat → Nat} {kec2 : Nat → Nat → Nat}
    {sender r blockNumber : Nat} {g g' : Game} :
    revealHash kec kec2 sender r blockNumber g = .ok g' ↔
      g.gamemaster ≠ 0 ∧ sender = g.gamemaster ∧ g.hasCommitted = true ∧
      g.hasRevealed = false ∧ g.commitBlockNumber ≤ blockNumber ∧
      kec r = g.committedHash ∧ g.commitBlockHash ≠ 0 ∧
      { g with
        revealValue := r
        hasRevealed := true
        randomHash := kec2 g.commitBlockHash r } = g' := by
  simp only [revealHash]
  split_ifs <;> simp_all

theorem payout_ok_iff {sender : Nat} {ws : List Nat} {g : Game}
    {p : Game × List Action} :
    payout sender ws g = .ok p ↔
      g.gamemaster ≠ 0 ∧ sender = g.gamemaster ∧ ws.length ≠ 0 ∧
      g.players.length ≠ 0 ∧ g.hasPaidOut = false ∧ g.canWithdraw = false ∧
      g.stakeAmount * g.players.length ≠ 0 ∧
      (g.stakeAmount * g.players.length -
        g.stakeAmount * g.players.length / 100) / ws.length ≠ 0 ∧
      (∀ w ∈ ws, w ≠ 0) ∧
      ({ g with
              winners := g.winners ++ ws
              payoutAmount :=
                (g.stakeAmount * g.players.length -
                  g.stakeAmount * g.players.length / 100) / ws.length
              hasPaidOut := true },
            Action.stateCommit ::
              ((if 0 < g.stakeAmount * g.players.length / 100 then
                  [Action.xfer g.gamemaster
                    (g.stakeAmount * g.players.length / 100)]
                else []) ++
                ws.map (fun w => Action.xfer w
                  ((g.stakeAmount * g.players.length -
                    g.stakeAmount * g.players.length / 100) / ws.length)))) =
        p := by
  simp only [payout]
  by_cases h1 : g.gamemaster = 0
  · rw [if_pos h1]
    exact iff_of_false (by simp) (fun hc => hc.1 h1)
  rw [if_neg h1]
  by_cases h2 : sender ≠ g.gamemaster
  · rw [if_pos h2]
    exact iff_of_false (by simp) (fun hc => h2 hc.2.1)
  rw [if_neg h2]
  push_neg at h2
  by_cases h3 : ws.length = 0
  · rw [if_pos h3]
    exact iff_of_false (by simp) (fun hc => hc.2.2.1 h3)
  rw [if_neg h3]
  by_cases h4 : g.players.length = 0
  · rw [if_pos h4]
    exact iff_of_false (by simp) (fun hc => hc.2.2.2.1 h4)
  rw [if_neg h4]
  by_cases h5 : g.hasPaidOut = true
  · rw [if_pos h5]
    exact iff_of_false (by simp)
      (fun hc => by rw [hc.2.2.2.2.1] at h5; cases h5)
  rw [if_neg h5]
  by_cases h6 : g.canWithdraw = true
  · rw [if_pos h6]
    exact iff_of_false (by simp)
      (fun hc => by rw [hc.2.2.2.2.2.1] at h6; cases h6)
  rw [if_neg h6]
  by_cases h7 : g.stakeAmount * g.players.length = 0
  · rw [if_pos h7]
    exact iff_of_false (by simp) (fun hc => hc.2.2.2.2.2.2.1 h7)
  rw [if_neg h7]
  by_cases h8 : (g.stakeAmount * g.players.length -
      g.stakeAmount * g.players.length / 100) / ws.length = 0
  · rw [if_pos h8]
    exact iff_of_false (by simp) (fun hc => hc.2.2.2.2.2.2.2.1 h8)
  rw [if_neg h8]
  by_cases h9 : (ws.any fun w => w = 0) = true
  · rw [if_pos h9]
    refine iff_of_false (by simp) (fun hc => ?_)
    rw [List.any_eq_true] at h9
    obtain ⟨w, hw, hw0⟩ := h9
    exact hc.2.2.2.2.2.2.2.2.1 w hw (by simpa using hw0)
  rw [if_neg h9]
  rw [Except.ok.injEq]
  constructor
  · intro hp
    refine ⟨h1, h2, h3, h4, ?_, ?_, h7, h8, ?_, hp⟩
    · simpa using h5
    · simpa using h6
    · intro w hw
      by_contra hw0
      exact h9 (List.any_eq_true.2 ⟨w, hw, by simp [hw0]⟩)
  · intro hc
    exact hc.2.2.2.2.2.2.2.2.2

theorem playerWithdraw_ok_iff {sender timestamp : Nat} {g : Game}
    {p : Game × List Action} :
    playerWithdraw sender timestamp g = .ok p ↔
      g.gamemaster ≠ 0 ∧ g.hasClosed = true ∧ g.hasJoined sender = true ∧
      g.hasWithdrawn sender = false ∧ g.startTime ≠ 0 ∧
      (g.canWithdraw = true ∨
        (g.startTime + PAYOUT_TIMEOUT ≤ timestamp ∧ g.hasPaidOut = false)) ∧
      ({ g with
              canWithdraw := true
              hasPaidOut := if g.canWithdraw then g.hasPaidOut else true
              hasWithdrawn :=
                fun q => if q = sender then true else g.hasWithdrawn q },
            [Action.stateCommit, Action.xfer sender g.stakeAmount]) = p := by
  simp only [playerWithdraw]
  by_cases hcw : g.canWithdraw <;>
    split_ifs <;> simp_all

/-- Marking one not-yet-marked member of a duplicate-free list grows the
marked count by exactly one. -/
theorem filter_update_length {l : List Nat} {f : Nat → Bool} {s : Nat}
    (hnd : l.Nodup) (hs : s ∈ l) (hf : f s = false) :
    (l.filter (fun p => if p = s then true else f p)).length
      = (l.filter f).length + 1 := by
  induction l with
  | nil => cases hs
  | cons a tl ih =>
    rcases List.nodup_cons.1 hnd with ⟨hna, hndtl⟩
    rcases List.mem_cons.1 hs with rfl | h
    · have htl : List.filter (fun p => if p = s then true else f p) tl
          = List.filter f tl := by
        refine List.filter_congr (fun x hx => ?_)
        have hxs : x ≠ s := fun he => hna (he ▸ hx)
        simp [hxs]
      rw [List.filter_cons, List.filter_cons, if_pos (by simp),
        if_neg (by simp [hf]), List.length_cons, htl]
    · have hne : a ≠ s := fun he => hna (he ▸ h)
      by_cases hfa : f a = true
      · rw [List.filter_cons, List.filter_cons, if_pos (by simp [hne, hfa]),
          if_pos hfa, List.length_cons, List.length_cons, ih hndtl h]
      · rw [List.filter_cons, List.filter_cons, if_neg (by simp [hne, hfa]),
          if_neg hfa, ih hndtl h]

theorem outflow_append (l1 l2 : List Action) :
    outflow (l1 ++ l2) = outflow l1 + outflow l2 := by
  induction l1 with
  | nil => simp [outflow]
  | cons a tl ih => cases a <;> simp [outflow, ih, Nat.add_assoc]


theorem outflow_map_xfer (ws : List Nat) (a : Nat) :
    outflow (ws.map (fun w => Action.xfer w a)) = a * ws.length := by
  induction ws with
  | nil => simp [outflow]
  | cons w tl ih => simp [outflow, ih, Nat.mul_succ]; omega

theorem Inv_init {sender gm stake : Nat} {g : Game}
    (hok : createGame sender gm stake = .ok g) :
    Inv ⟨g, 0, 0, 0⟩ := by
  obtain ⟨-, -, hg⟩ := createGame_ok_iff.1 hok
  subst hg
  exact ⟨rfl, by simp, by simp, by simp, by simp, by simp, by simp,
    by simp, by simp, by simp, by simp, by simp, by simp, by simp⟩

theorem Inv_commit {w : World} {s h bn t : Nat} {g' : Game}
    (hi : Inv w) (hok : commitHash s h bn t w.g = .ok g') :
    Inv ⟨g', w.escrow, w.paid, w.withdrawn⟩ := by
  obtain ⟨-, -, h3, hg⟩ := commitHash_ok_iff.1 hok
  subst hg
  have hcl : w.g.hasClosed = false := by
    by_contra hc
    simp only [Bool.not_eq_false] at hc
    have ho := hi.closed_opened hc
    rw [hi.opened_eq, h3] at ho
    cases ho
  refine ⟨rfl, by simp, fun _ => rfl, ?_, hi.joined_mem, hi.nodup,
    hi.withdrawn_eq, hi.cw_closed, hi.cw_paidflag, hi.cw_paid_zero,
    hi.not_paid, hi.no_wd, hi.paid_le, hi.conservation⟩
  intro hc
  dsimp only at hc
  rw [hcl] at hc
  cases hc

theorem Inv_storeBlock {w : World} {s bn bh : Nat} {u : String} {g' : Game}
    (hi : Inv w) (hok : storeCommitBlockHash s u bn bh w.g = .ok g') :
    Inv ⟨g', w.escrow, w.paid, w.withdrawn⟩ := by
  obtain ⟨-, -, -, -, -, -, -, hg⟩ := storeCommitBlockHash_ok_iff.1 hok
  subst hg
  exact ⟨hi.opened_eq, hi.open_committed, hi.closed_opened,
    hi.closed_not_open, hi.joined_mem, hi.nodup, hi.withdrawn_eq,
    hi.cw_closed, hi.cw_paidflag, hi.cw_paid_zero, hi.not_paid, hi.no_wd,
    hi.paid_le, hi.conservation⟩

theorem Inv_reveal {w : World} {kec : Nat → Nat} {kec2 : Nat → Nat → Nat}
    {s r bn : Nat} {g' : Game}
    (hi : Inv w) (hok : revealHash kec kec2 s r bn w.g = .ok g') :
    Inv ⟨g', w.escrow, w.paid, w.withdrawn⟩ := by
  obtain ⟨-, -, -, -, -, -, -, hg⟩ := revealHash_ok_iff.1 hok
  subst hg
  exact ⟨hi.opened_eq, hi.open_committed, hi.closed_opened,
    hi.closed_not_open, hi.joined_mem, hi.nodup, hi.withdrawn_eq,
    hi.cw_closed, hi.cw_paidflag, hi.cw_paid_zero, hi.not_paid, hi.no_wd,
    hi.paid_le, hi.conservation⟩

theorem Inv_close {w : World} {s t : Nat} {g' : Game}
    (hi : Inv w) (hok : closeGame s t w.g = .ok g') :
    Inv ⟨g', w.escrow, w.paid, w.withdrawn⟩ := by
  obtain ⟨-, ho, -, -, -, hg⟩ := closeGame_ok_iff.1 hok
  subst hg
  exact ⟨hi.opened_eq, by simp, by simp [ho], by simp, hi.joined_mem,
    hi.nodup, hi.withdrawn_eq, fun _ => rfl, hi.cw_paidflag,
    hi.cw_paid_zero, hi.not_paid, hi.no_wd, hi.paid_le, hi.conservation⟩

theorem Inv_join {w : World} {s v : Nat} {g' : Game}
    (hi : Inv w) (hok : joinGame s v w.g = .ok g') :
    Inv ⟨g', w.escrow + (v : Int), w.paid, w.withdrawn⟩ := by
  obtain ⟨-, hop, hv, hj, hg⟩ := joinGame_ok_iff.1 hok
  subst hg
  have hcw : w.g.canWithdraw = false := by
    by_contra hc
    simp only [Bool.not_eq_false] at hc
    have := hi.closed_not_open (hi.cw_closed hc)
    rw [hop] at this
    cases this
  have hsm : s ∉ w.g.players := fun hm => by
    rw [(hi.joined_mem s).2 hm] at hj; cases hj
  refine ⟨hi.opened_eq, hi.open_committed, hi.closed_opened,
    hi.closed_not_open, ?_, ?_, ?_, hi.cw_closed, hi.cw_paidflag,
    hi.cw_paid_zero, hi.not_paid, hi.no_wd, ?_, ?_⟩
  · intro p
    simp only [List.mem_append, List.mem_singleton]
    by_cases hps : p = s
    · subst hps; simp
    · simp [hps, hi.joined_mem p]
  · simp only [List.nodup_append]
    exact ⟨hi.nodup, List.nodup_singleton s, by
      simp only [List.disjoint_singleton]; exact hsm⟩
  · have hws : w.g.hasWithdrawn s = false := hi.no_wd hcw s
    simp only [List.filter_append, List.filter_cons, hws]
    simp [hi.withdrawn_eq]
  · intro hp
    rcases hi.paid_le hp with hc | hle
    · exact Or.inl hc
    · refine Or.inr (le_trans hle ?_)
      simp only [List.length_append, List.length_singleton]
      exact Nat.mul_le_mul_left _ (Nat.le_succ _)
  · have := hi.conservation
    simp only [List.length_append, List.length_singleton]
    subst hv
    push_cast [Nat.mul_succ] at this ⊢
    linarith

theorem Inv_payout {w : World} {s : Nat} {ws : List Nat} {g' : Game}
    {tr : List Action}
    (hi : Inv w) (hok : payout s ws w.g = .ok (g', tr)) :
    Inv ⟨g', w.escrow - (outflow tr : Int), w.paid + outflow tr,
      w.withdrawn⟩ := by
  obtain ⟨-, -, hws, -, hpo, hcw, -, hper, -, hg⟩ := payout_ok_iff.1 hok
  rw [Prod.mk.injEq] at hg
  obtain ⟨hg, htr⟩ := hg
  subst hg
  have hout : outflow tr =
      w.g.stakeAmount * w.g.players.length / 100 +
      ((w.g.stakeAmount * w.g.players.length -
        w.g.stakeAmount * w.g.players.length / 100) / ws.length) *
        ws.length := by
    rw [← htr]
    simp only [outflow, outflow_append, outflow_map_xfer]
    by_cases hcut : 0 < w.g.stakeAmount * w.g.players.length / 100
    · simp [hcut, outflow]
    · simp only [Nat.not_lt, Nat.le_zero] at hcut
      simp [hcut, outflow]
  have hpz : w.paid = 0 := hi.not_paid hpo
  refine ⟨hi.opened_eq, hi.open_committed, hi.closed_opened,
    hi.closed_not_open, hi.joined_mem, hi.nodup, hi.withdrawn_eq,
    ?_, fun _ => rfl, ?_, ?_, hi.no_wd, ?_, ?_⟩
  · intro hc; dsimp only at hc; rw [hcw] at hc; cases hc
  · intro hc; dsimp only at hc; rw [hcw] at hc; cases hc
  · intro hc; dsimp only at hc; cases hc
  · intro _
    refine Or.inr ?_
    dsimp only
    rw [hpz, hout, Nat.zero_add]
    have hd : (w.g.stakeAmount * w.g.players.length -
        w.g.stakeAmount * w.g.players.length / 100) / ws.length *
        ws.length ≤ w.g.stakeAmount * w.g.players.length -
        w.g.stakeAmount * w.g.players.length / 100 :=
      Nat.div_mul_le_self _ _
    have hc : w.g.stakeAmount * w.g.players.length / 100 ≤
        w.g.stakeAmount * w.g.players.length := Nat.div_le_self _ _
    calc w.g.stakeAmount * w.g.players.length / 100 +
        (w.g.stakeAmount * w.g.players.length -
          w.g.stakeAmount * w.g.players.length / 100) / ws.length *
          ws.length
        ≤ w.g.stakeAmount * w.g.players.length / 100 +
          (w.g.stakeAmount * w.g.players.length -
            w.g.stakeAmount * w.g.players.length / 100) :=
          Nat.add_le_add_left hd _
      _ = w.g.stakeAmount * w.g.players.length := Nat.add_sub_cancel' hc
  · have hcons := hi.conservation
    dsimp only
    push_cast at hcons ⊢
    linarith

theorem Inv_withdraw {w : World} {s t : Nat} {g' : Game} {tr : List Action}
    (hi : Inv w) (hok : playerWithdraw s t w.g = .ok (g', tr)) :
    Inv ⟨g', w.escrow - (outflow tr : Int), w.paid,
      w.withdrawn + outflow tr⟩ := by
  obtain ⟨-, hcl, hj, hwd, -, hor, hg⟩ := playerWithdraw_ok_iff.1 hok
  rw [Prod.mk.injEq] at hg
  obtain ⟨hg, htr⟩ := hg
  subst hg
  have hout : outflow tr = w.g.stakeAmount := by
    rw [← htr]; simp [outflow]
  have hpz : w.paid = 0 := by
    by_cases hc : w.g.canWithdraw = true
    · exact hi.cw_paid_zero hc
    · rcases hor with hcw | ⟨-, hnp⟩
      · exact absurd hcw hc
      · exact hi.not_paid hnp
  have hsm : s ∈ w.g.players := (hi.joined_mem s).1 hj
  refine ⟨hi.opened_eq, hi.open_committed, hi.closed_opened,
    hi.closed_not_open, hi.joined_mem, hi.nodup, ?_, fun _ => hcl, ?_,
    fun _ => hpz, ?_, ?_, fun _ => Or.inl rfl, ?_⟩
  · dsimp only
    rw [filter_update_length hi.nodup hsm hwd, hout, hi.withdrawn_eq,
      Nat.mul_succ]
  · intro _
    dsimp only
    by_cases hc : w.g.canWithdraw = true
    · simp [hc, hi.cw_paidflag hc]
    · simp only [Bool.not_eq_true] at hc
      simp [hc]
  · intro hc
    dsimp only at hc
    by_cases hcw2 : w.g.canWithdraw = true
    · rw [if_pos hcw2] at hc
      exact absurd (hi.cw_paidflag hcw2) (by simp [hc])
    · simp only [Bool.not_eq_true] at hcw2
      rw [hcw2] at hc
      simp at hc
  · intro hc; dsimp only at hc; cases hc
  · have hcons := hi.conservation
    dsimp only
    rw [hout]
    push_cast at hcons ⊢
    linarith

/-- Every reachable world satisfies the ledger invariant. -/
theorem reach_inv {kec : Nat → Nat} {kec2 : Nat → Nat → Nat} {w : World}
    (hr : Reach kec kec2 w) : Inv w := by
  induction hr with
  | init sender gm stake g hok => exact Inv_init hok
  | step w w' hw hs ih =>
    cases hs with
    | commit s h bn t g' hok => exact Inv_commit ih hok
    | storeBlock s u bn bh g' hok => exact Inv_storeBlock ih hok
    | join s v g' hok => exact Inv_join ih hok
    | close s t g' hok => exact Inv_close ih hok
    | reveal s r bn g' hok => exact Inv_reveal ih hok
    | payoutStep s ws g' tr hok => exact Inv_payout ih hok
    | withdrawStep s t g' tr hok => exact Inv_withdraw ih hok

/-- The invariant forces total disbursement not to exceed the pool. -/
theorem Inv.total_le {w : World} (hi : Inv w) :
    w.paid + w.withdrawn ≤ w.g.stakeAmount * w.g.players.length := by
  by_cases hc : w.g.canWithdraw = true
  · rw [hi.cw_paid_zero hc, hi.withdrawn_eq, Nat.zero_add]
    exact Nat.mul_le_mul_left _ (List.length_filter_le _ _)
  · simp only [Bool.not_eq_true] at hc
    have hwd : w.withdrawn = 0 := by
      rw [hi.withdrawn_eq]
      have hfe : w.g.players.filter (fun p => w.g.hasWithdrawn p) = [] := by
        rw [List.filter_eq_nil_iff]
        intro p hp
        simp [hi.no_wd hc p]
      rw [hfe]
      simp
    rw [hwd, Nat.add_zero]
    by_cases hp : w.g.hasPaidOut = true
    · rcases hi.paid_le hp with hcc | hle
      · rw [hc] at hcc; cases hcc
      · exact hle
    · simp only [Bool.not_eq_true] at hp
      rw [hi.not_paid hp]
      exact Nat.zero_le _

/-! ### Claim theorems -/

/-- C1.  Fund conservation: in every reachable state of a game, the stake
times the number of joined players equals the total ever disbursed by
`payout` plus the total withdrawn via `playerWithdraw` plus the value
still escrowed for the game; the escrow is never negative (no value is
created), and total disbursement never exceeds the pool (what stays locked
is exactly the non-negative difference, the integer-division remainder). -/
theorem C1_fund_conservation {kec : Nat → Nat} {kec2 : Nat → Nat → Nat}
    {w : World} (hr : Reach kec kec2 w) :
    w.escrow + (w.paid : Int) + (w.withdrawn : Int) =
      ((w.g.stakeAmount * w.g.players.length : Nat) : Int) ∧
    0 ≤ w.escrow ∧
    w.paid + w.withdrawn ≤ w.g.stakeAmount * w.g.players.length := by
  have hi := reach_inv hr
  refine ⟨hi.conservation, ?_, hi.total_le⟩
  have h1 := hi.conservation
  have h2 := hi.total_le
  have h3 : (w.paid : Int) + (w.withdrawn : Int) ≤
      ((w.g.stakeAmount * w.g.players.length : Nat) : Int) := by
    exact_mod_cast h2
  linarith

/-- Witness for C1 at the world reached by create, commit and one join. -/
theorem C1_fund_conservation_witness :
    wWit.escrow + (wWit.paid : Int) + (wWit.withdrawn : Int) =
      ((wWit.g.stakeAmount * wWit.g.players.length : Nat) : Int) ∧
    0 ≤ wWit.escrow ∧
    wWit.paid + wWit.withdrawn ≤
      wWit.g.stakeAmount * wWit.g.players.length :=
  @C1_fund_conservation kecS kec2S wWit
    (Reach.step _ _
      (Reach.step _ _ (Reach.init 1 2 5 wG0 rfl)
        (Step.commit _ 2 9 10 20 wG1 rfl))
      (Step.join _ 7 5 wG2 rfl))

/-- C2.  Settlement exclusivity: a successful payout records `hasPaidOut`
and leaves withdrawal mode untouched; with `hasPaidOut` set, every payout
call fails; with `hasPaidOut` set and withdrawal mode inactive, every
(withdrawal-initiating) `playerWithdraw` call fails; with withdrawal mode
active, every payout call fails even if payout never ran; and a
successful `playerWithdraw` activates withdrawal mode and, when it is the
first one, sets the payout-blocking flag. -/
theorem C2_settlement_exclusivity (g : Game) (s s2 t : Nat)
    (ws : List Nat) :
    (∀ g' tr, payout s ws g = .ok (g', tr) →
      g'.hasPaidOut = true ∧ g'.canWithdraw = g.canWithdraw) ∧
    (g.hasPaidOut = true → ∃ e, payout s ws g = .error e) ∧
    (g.hasPaidOut = true → g.canWithdraw = false →
      ∃ e, playerWithdraw s2 t g = .error e) ∧
    (g.canWithdraw = true → ∃ e, payout s ws g = .error e) ∧
    (∀ g' tr, playerWithdraw s2 t g = .ok (g', tr) →
      g'.canWithdraw = true ∧
      (g.canWithdraw = false → g'.hasPaidOut = true)) := by
  refine ⟨?_, ?_, ?_, ?_, ?_⟩
  · intro g' tr hok
    obtain ⟨-, -, -, -, -, -, -, -, -, hg⟩ := payout_ok_iff.1 hok
    rw [Prod.mk.injEq] at hg
    rw [← hg.1]
    exact ⟨rfl, rfl⟩
  · intro hpo
    cases hp : payout s ws g with
    | error e => exact ⟨e, rfl⟩
    | ok x =>
      obtain ⟨-, -, -, -, hpo2, -⟩ := payout_ok_iff.1 hp
      rw [hpo] at hpo2
      cases hpo2
  · intro hpo hcw
    cases hp : playerWithdraw s2 t g with
    | error e => exact ⟨e, rfl⟩
    | ok x =>
      obtain ⟨-, -, -, -, -, hor, -⟩ := playerWithdraw_ok_iff.1 hp
      rcases hor with hc | ⟨-, hnp⟩
      · rw [hcw] at hc; cases hc
      · rw [hpo] at hnp; cases hnp
  · intro hcw
    cases hp : payout s ws g with
    | error e => exact ⟨e, rfl⟩
    | ok x =>
      obtain ⟨-, -, -, -, -, hcw2, -⟩ := payout_ok_iff.1 hp
      rw [hcw] at hcw2
      cases hcw2
  · intro g' tr hok
    obtain ⟨-, -, -, -, -, -, hg⟩ := playerWithdraw_ok_iff.1 hok
    rw [Prod.mk.injEq] at hg
    rw [← hg.1]
    refine ⟨rfl, fun hc => ?_⟩
    simp [hc]

/-- Witness for C2: on the already-paid-out sample game, payout fails. -/
theorem C2_settlement_exclusivity_witness :
    ∃ e, payout 2 [21] gPaid = .error e :=
  (C2_settlement_exclusivity gPaid 2 11 500 [21]).2.1 rfl

/-- C3.  Payout arithmetic: with the guards satisfied, a per-winner amount
of zero is rejected with the arithmetic error, and a successful payout
records per-winner = (pool − pool/100)/|winners| and performs exactly the
gamemaster cut (skipped when zero) followed by the per-winner transfers. -/
theorem C3_payout_arithmetic (g : Game) (s : Nat) (ws : List Nat)
    (hgm : g.gamemaster ≠ 0) (hs : s = g.gamemaster)
    (hstake : 0 < g.stakeAmount) (hpl : g.players.length ≠ 0)
    (hws : ws.length ≠ 0) (hnp : g.hasPaidOut = false)
    (hcw : g.canWithdraw = false) :
    ((g.stakeAmount * g.players.length -
        g.stakeAmount * g.players.length / 100) / ws.length = 0 →
      payout s ws g = .error Err.arith) ∧
    (∀ g' tr, payout s ws g = .ok (g', tr) →
      g'.payoutAmount = (g.stakeAmount * g.players.length -
        g.stakeAmount * g.players.length / 100) / ws.length ∧
      g'.hasPaidOut = true ∧
      tr = Action.stateCommit ::
        ((if 0 < g.stakeAmount * g.players.length / 100 then
            [Action.xfer g.gamemaster
              (g.stakeAmount * g.players.length / 100)]
          else []) ++
          ws.map (fun w => Action.xfer w
            ((g.stakeAmount * g.players.length -
              g.stakeAmount * g.players.length / 100) / ws.length)))) := by
  constructor
  · intro hper0
    have h1 : ¬(g.gamemaster = 0) := hgm
    have h2 : ¬(s ≠ g.gamemaster) := by simp [hs]
    have h5 : ¬(g.hasPaidOut = true) := by simp [hnp]
    have h6 : ¬(g.canWithdraw = true) := by simp [hcw]
    have h7 : ¬(g.stakeAmount * g.players.length = 0) :=
      Nat.mul_ne_zero (Nat.pos_iff_ne_zero.1 hstake) hpl
    simp only [payout]
    rw [if_neg h1, if_neg h2, if_neg hws, if_neg hpl, if_neg h5, if_neg h6,
      if_neg h7, if_pos hper0]
  · intro g' tr hok
    obtain ⟨-, -, -, -, -, -, -, -, -, hg⟩ := payout_ok_iff.1 hok
    rw [Prod.mk.injEq] at hg
    rw [← hg.1, ← hg.2]
    exact ⟨rfl, rfl, rfl⟩

/-- Witness for C3: the spec's worked example — stake 1000, three players,
two winners — pays 1485 to each winner after a cut of 30. -/
theorem C3_payout_arithmetic_witness :
    gPaidOut3.payoutAmount =
      (gClosed3.stakeAmount * gClosed3.players.length -
        gClosed3.stakeAmount * gClosed3.players.length / 100) /
        ([21, 22] : List Nat).length ∧
    gPaidOut3.hasPaidOut = true ∧
    tr3 = Action.stateCommit ::
      ((if 0 < gClosed3.stakeAmount * gClosed3.players.length / 100 then
          [Action.xfer gClosed3.gamemaster
            (gClosed3.stakeAmount * gClosed3.players.length / 100)]
        else []) ++
        ([21, 22] : List Nat).map (fun w => Action.xfer w
          ((gClosed3.stakeAmount * gClosed3.players.length -
            gClosed3.stakeAmount * gClosed3.players.length / 100) /
            ([21, 22] : List Nat).length))) :=
  (C3_payout_arithmetic gClosed3 2 [21, 22] (by decide) rfl (by decide)
    (by decide) (by decide) rfl rfl).2 gPaidOut3 tr3 (by rfl)

/-- C4.  Commit once and atomic opening: a successful `commitHash`
requires no prior commitment and, in the same call, sets the commitment,
opens the game, records the commit checkpoint (next block number) and the
opening time; on a game that already committed, every further
`commitHash` call fails (so the first hash is immutable). -/
theorem C4_commit_once (g g' : Game) (s h bn t : Nat) :
    (commitHash s h bn t g = .ok g' →
      g.hasCommitted = false ∧ g'.hasCommitted = true ∧ g'.open' = true ∧
      g'.hasOpened = true ∧ g'.committedHash = h ∧
      g'.commitBlockNumber = bn + 1 ∧ g'.openTime = t) ∧
    (g.hasCommitted = true →
      ∀ s2 h2 bn2 t2, ∃ e, commitHash s2 h2 bn2 t2 g = .error e) := by
  constructor
  · intro hok
    obtain ⟨-, -, h3, hg⟩ := commitHash_ok_iff.1 hok
    subst hg
    exact ⟨h3, rfl, rfl, rfl, rfl, rfl, rfl⟩
  · intro hc s2 h2 bn2 t2
    cases hp : commitHash s2 h2 bn2 t2 g with
    | error e => exact ⟨e, rfl⟩
    | ok x =>
      obtain ⟨-, -, h3, -⟩ := commitHash_ok_iff.1 hp
      rw [hc] at h3
      cases h3

/-- Witness for C4: committing on the fresh sample game opens it and
records hash 9, checkpoint 11 and opening time 20. -/
theorem C4_commit_once_witness :
    wG0.hasCommitted = false ∧ wG1.hasCommitted = true ∧
    wG1.open' = true ∧ wG1.hasOpened = true ∧ wG1.committedHash = 9 ∧
    wG1.commitBlockNumber = 11 ∧ wG1.openTime = 20 :=
  (C4_commit_once wG0 wG1 2 9 10 20).1 rfl

/-- C5.  Reveal integrity and non-consumption: a secret whose hash does
not match the committed hash can never make `revealHash` succeed, and —
the call having failed with no state change — a later call on the same
game with a correctly-hashing secret succeeds, with the stored commitment
data unchanged. -/
theorem C5_reveal_integrity (kec : Nat → Nat) (kec2 : Nat → Nat → Nat)
    (g : Game) (s r bn : Nat) (hmis : kec r ≠ g.committedHash) :
    (∃ e, revealHash kec kec2 s r bn g = .error e) ∧
    (∀ r2, kec r2 = g.committedHash → s = g.gamemaster →
      g.gamemaster ≠ 0 → g.hasCommitted = true → g.hasRevealed = false →
      g.commitBlockNumber ≤ bn → g.commitBlockHash ≠ 0 →
      ∃ g', revealHash kec kec2 s r2 bn g = .ok g' ∧
        g'.hasRevealed = true ∧ g'.committedHash = g.committedHash ∧
        g'.commitBlockHash = g.commitBlockHash) := by
  constructor
  · cases hp : revealHash kec kec2 s r bn g with
    | error e => exact ⟨e, rfl⟩
    | ok x =>
      obtain ⟨-, -, -, -, -, hh, -⟩ := revealHash_ok_iff.1 hp
      exact absurd hh hmis
  · intro r2 hh hs hgm hcom hrev hbn hbh
    exact ⟨_, revealHash_ok_iff.2 ⟨hgm, hs, hcom, hrev, hbn, hh, hbh, rfl⟩,
      rfl, rfl, rfl⟩

/-- Witness for C5: on the committed sample game (committed hash 100), the
secret 3 hashes to 4 and can never reveal, while the secret 99 hashes to
100 and still succeeds afterwards. -/
theorem C5_reveal_integrity_witness :
    ∃ g', revealHash kecS kec2S 2 99 5 gOpen = .ok g' ∧
      g'.hasRevealed = true ∧ g'.committedHash = gOpen.committedHash ∧
      g'.commitBlockHash = gOpen.commitBlockHash :=
  (C5_reveal_integrity kecS kec2S gOpen 2 3 5 (by decide)).2 99 (by decide)
    rfl (by decide) rfl rfl (by decide) (by decide)

/-- C6.  Abandonment close authorization: on an open game with at least
one player and a recorded positive opening time, once the elapsed time
strictly exceeds `CREATOR_TIMEOUT` any caller can close; strictly before
the timeout, the creator can close and every other caller is rejected
with the authorization error. -/
theorem C6_close_abandonment (g : Game) (s t : Nat)
    (hgm : g.gamemaster ≠ 0) (hop : g.hasOpened = true)
    (hncl : g.hasClosed = false) (hopen : g.open' = true)
    (hpl : g.players.length ≠ 0) (hot : 0 < g.openTime) :
    (g.openTime + CREATOR_TIMEOUT < t → ∃ g', closeGame s t g = .ok g') ∧
    (t < g.openTime + CREATOR_TIMEOUT →
      (s = g.creator → ∃ g', closeGame s t g = .ok g') ∧
      (s ≠ g.creator → closeGame s t g = .error Err.auth)) := by
  constructor
  · intro ht
    exact ⟨_, closeGame_ok_iff.2 ⟨hgm, hop, hncl, hopen,
      Or.inr ⟨hot, Nat.le_of_lt ht, hpl⟩, rfl⟩⟩
  · intro ht
    constructor
    · intro hsc
      exact ⟨_, closeGame_ok_iff.2 ⟨hgm, hop, hncl, hopen, Or.inl hsc, rfl⟩⟩
    · intro hsc
      have hno : ¬(s = g.creator ∨
          (0 < g.openTime ∧ g.openTime + CREATOR_TIMEOUT ≤ t ∧
            g.players.length ≠ 0)) := by
        rintro (h | ⟨-, hle, -⟩)
        · exact hsc h
        · omega
      simp only [closeGame]
      rw [if_neg hgm, if_neg (not_not_intro hop), if_neg (by simp [hncl]),
        if_neg (not_not_intro hopen), if_neg hno]

/-- Witness for C6: a non-creator (caller 99) successfully closes the
abandoned sample game at time 250 > 50 + 150. -/
theorem C6_close_abandonment_witness :
    ∃ g', closeGame 99 250 gAband = .ok g' :=
  (C6_close_abandonment gAband 99 250 (by decide) rfl rfl rfl (by decide)
    (by decide)).1 (by decide)

/-- C7.  Join guards and player uniqueness: a successful `joinGame`
requires the game open, the exact stake attached and a caller not yet a
member, and appends the caller once; a closed game, a wrong payment or a
repeated caller always fail (the error return carries no state, matching
revert, so `players` is untouched); when the membership mapping covers
the player list, a successful join preserves its duplicate-freedom. -/
theorem C7_join_guards (g g' : Game) (s v : Nat) :
    (joinGame s v g = .ok g' →
      g.open' = true ∧ v = g.stakeAmount ∧ g.hasJoined s = false ∧
      g'.players = g.players ++ [s]) ∧
    (g.open' = false → ∃ e, joinGame s v g = .error e) ∧
    (v ≠ g.stakeAmount → ∃ e, joinGame s v g = .error e) ∧
    (g.hasJoined s = true → ∃ e, joinGame s v g = .error e) ∧
    (joinGame s v g = .ok g' → g.players.Nodup →
      (∀ p, p ∈ g.players → g.hasJoined p = true) → g'.players.Nodup) := by
  refine ⟨?_, ?_, ?_, ?_, ?_⟩
  · intro hok
    obtain ⟨-, ho, hv, hj, hg⟩ := joinGame_ok_iff.1 hok
    subst hg
    exact ⟨ho, hv, hj, rfl⟩
  · intro hno
    cases hp : joinGame s v g with
    | error e => exact ⟨e, rfl⟩
    | ok x =>
      obtain ⟨-, ho, -⟩ := joinGame_ok_iff.1 hp
      rw [hno] at ho
      cases ho
  · intro hnv
    cases hp : joinGame s v g with
    | error e => exact ⟨e, rfl⟩
    | ok x =>
      obtain ⟨-, -, hv, -⟩ := joinGame_ok_iff.1 hp
      exact absurd hv hnv
  · intro hjj
    cases hp : joinGame s v g with
    | error e => exact ⟨e, rfl⟩
    | ok x =>
      obtain ⟨-, -, -, hj, -⟩ := joinGame_ok_iff.1 hp
      rw [hjj] at hj
      cases hj
  · intro hok hnd hmem
    obtain ⟨-, -, -, hj, hg⟩ := joinGame_ok_iff.1 hok
    subst hg
    have hsm : s ∉ g.players := fun hm => by
      rw [hmem s hm] at hj; cases hj
    simp only [List.nodup_append]
    exact ⟨hnd, List.nodup_singleton s, by
      simp only [List.disjoint_singleton]; exact hsm⟩

/-- Witness for C7: player 7 joins the open sample game with the exact
stake of 5 and is appended to the player list. -/
theorem C7_join_guards_witness :
    gOpen.open' = true ∧ 5 = gOpen.stakeAmount ∧
    gOpen.hasJoined 7 = false ∧ gJoined.players = gOpen.players ++ [7] :=
  (C7_join_guards gOpen gJoined 7 5).1 rfl

theorem outflowTo_append (a : Nat) (l1 l2 : List Action) :
    outflowTo a (l1 ++ l2) = outflowTo a l1 + outflowTo a l2 := by
  induction l1 with
  | nil => simp [outflowTo]
  | cons x tl ih => cases x <;> simp [outflowTo, ih, Nat.add_assoc]

theorem outflowTo_map_xfer (a amt : Nat) (ws : List Nat) :
    outflowTo a (ws.map (fun w => Action.xfer w amt)) =
      amt * ws.count a := by
  induction ws with
  | nil => simp [outflowTo]
  | cons w tl ih =>
    by_cases hw : w = a
    · subst hw
      simp [outflowTo, ih, List.count_cons, Nat.mul_succ, Nat.add_comm]
    · have hw2 : ¬(a = w) := fun he => hw he.symm
      simp [outflowTo, ih, List.count_cons, hw, hw2]

/-- C8.  Reentrancy ordering: a successful `payout` emits its single
state-commit (which records `hasPaidOut`, the winners and the amount)
strictly before every external transfer, and a successful
`playerWithdraw` emits its state-commit (marking the caller withdrawn
and, on the first withdrawal, flipping `canWithdraw`/`hasPaidOut`)
strictly before the single transfer of the caller's stake. -/
theorem C8_reentrancy_order (g : Game) (s s2 t : Nat) (ws : List Nat) :
    (∀ g' tr, payout s ws g = .ok (g', tr) →
      g'.hasPaidOut = true ∧
      ∃ rest, tr = Action.stateCommit :: rest ∧
        ∀ a ∈ rest, ∃ rcp amt, a = Action.xfer rcp amt) ∧
    (∀ g' tr, playerWithdraw s2 t g = .ok (g', tr) →
      g'.hasWithdrawn s2 = true ∧ g'.canWithdraw = true ∧
      tr = [Action.stateCommit, Action.xfer s2 g.stakeAmount]) := by
  constructor
  · intro g' tr hok
    obtain ⟨-, -, -, -, -, -, -, -, -, hg⟩ := payout_ok_iff.1 hok
    rw [Prod.mk.injEq] at hg
    refine ⟨by rw [← hg.1], ?_⟩
    refine ⟨_, hg.2.symm, ?_⟩
    intro a ha
    rcases List.mem_append.1 ha with h | h
    · by_cases hcut : 0 < g.stakeAmount * g.players.length / 100
      · rw [if_pos hcut] at h
        rcases List.mem_singleton.1 h with rfl
        exact ⟨_, _, rfl⟩
      · rw [if_neg hcut] at h
        cases h
    · rcases List.mem_map.1 h with ⟨x, -, rfl⟩
      exact ⟨_, _, rfl⟩
  · intro g' tr hok
    obtain ⟨-, -, -, -, -, -, hg⟩ := playerWithdraw_ok_iff.1 hok
    rw [Prod.mk.injEq] at hg
    refine ⟨?_, ?_, hg.2.symm⟩
    · rw [← hg.1]
      simp
    · rw [← hg.1]

/-- Witness for C8: player 11 withdrawing from the timed-out sample game
produces the state-commit followed by the single stake transfer. -/
theorem C8_reentrancy_order_witness :
    gWd.hasWithdrawn 11 = true ∧ gWd.canWithdraw = true ∧
    ([Action.stateCommit, Action.xfer 11 1000] : List Action) =
      [Action.stateCommit, Action.xfer 11 gClosed3.stakeAmount] :=
  (C8_reentrancy_order gClosed3 2 11 500 []).2 gWd
    [Action.stateCommit, Action.xfer 11 1000] (by rfl)

/-- C9.  Implicit: `revealHash` does not require the game to be closed —
with a commitment, a stored commit block hash, the checkpoint reached and
a matching secret, reveal succeeds while the game is still open, and a
player can still join afterwards. -/
theorem C9_reveal_while_open (kec : Nat → Nat) (kec2 : Nat → Nat → Nat)
    (g : Game) (s r bn p v : Nat)
    (hgm : g.gamemaster ≠ 0) (hs : s = g.gamemaster)
    (hcom : g.hasCommitted = true) (hrev : g.hasRevealed = false)
    (hbn : g.commitBlockNumber ≤ bn) (hh : kec r = g.committedHash)
    (hbh : g.commitBlockHash ≠ 0) (hncl : g.hasClosed = false)
    (hopen : g.open' = true) (hv : v = g.stakeAmount)
    (hj : g.hasJoined p = false) :
    ∃ g' g2, revealHash kec kec2 s r bn g = .ok g' ∧
      g'.hasClosed = false ∧ g'.open' = true ∧ g'.hasRevealed = true ∧
      joinGame p v g' = .ok g2 ∧ g2.players = g.players ++ [p] :=
  ⟨_, _, revealHash_ok_iff.2 ⟨hgm, hs, hcom, hrev, hbn, hh, hbh, rfl⟩,
    hncl, hopen, rfl, joinGame_ok_iff.2 ⟨hgm, hopen, hv, hj, rfl⟩, rfl⟩

/-- Witness for C9: on the still-open committed sample game, secret 99
reveals successfully and player 7 joins afterwards. -/
theorem C9_reveal_while_open_witness :
    ∃ g' g2, revealHash kecS kec2S 2 99 5 gOpen = .ok g' ∧
      g'.hasClosed = false ∧ g'.open' = true ∧ g'.hasRevealed = true ∧
      joinGame 7 5 g' = .ok g2 ∧ g2.players = gOpen.players ++ [7] :=
  C9_reveal_while_open kecS kec2S gOpen 2 99 5 7 5 (by decide) rfl rfl rfl
    (by decide) (by decide) (by decide) rfl rfl rfl rfl

/-- C10.  Implicit: `payout` never checks the winners list against the
game's players — success is characterized exactly by the guards (caller,
non-empty lists, settlement flags, positive amounts, non-zero addresses),
with no membership condition, and each occurrence in the winners list is
paid independently: an address listed k times receives k times the
per-winner amount (plus the cut if it is the gamemaster). -/
theorem C10_payout_unchecked_winners (g : Game) (s : Nat)
    (ws : List Nat) :
    ((∃ x, payout s ws g = .ok x) ↔
      (g.gamemaster ≠ 0 ∧ s = g.gamemaster ∧ ws.length ≠ 0 ∧
        g.players.length ≠ 0 ∧ g.hasPaidOut = false ∧
        g.canWithdraw = false ∧ g.stakeAmount * g.players.length ≠ 0 ∧
        (g.stakeAmount * g.players.length -
          g.stakeAmount * g.players.length / 100) / ws.length ≠ 0 ∧
        ∀ w ∈ ws, w ≠ 0)) ∧
    (∀ g' tr, payout s ws g = .ok (g', tr) → ∀ a,
      outflowTo a tr =
        (if g.gamemaster = a then
          g.stakeAmount * g.players.length / 100 else 0) +
        ((g.stakeAmount * g.players.length -
          g.stakeAmount * g.players.length / 100) / ws.length) *
          ws.count a) := by
  constructor
  · constructor
    · rintro ⟨x, hx⟩
      obtain ⟨h1, h2, h3, h4, h5, h6, h7, h8, h9, -⟩ := payout_ok_iff.1 hx
      exact ⟨h1, h2, h3, h4, h5, h6, h7, h8, h9⟩
    · rintro ⟨h1, h2, h3, h4, h5, h6, h7, h8, h9⟩
      exact ⟨_, payout_ok_iff.2 ⟨h1, h2, h3, h4, h5, h6, h7, h8, h9, rfl⟩⟩
  · intro g' tr hok a
    obtain ⟨-, -, -, -, -, -, -, -, -, hg⟩ := payout_ok_iff.1 hok
    rw [Prod.mk.injEq] at hg
    rw [← hg.2]
    simp only [outflowTo, outflowTo_append, outflowTo_map_xfer]
    by_cases hcut : 0 < g.stakeAmount * g.players.length / 100
    · rw [if_pos hcut]
      by_cases hga : g.gamemaster = a
      · simp [outflowTo, hga]
      · simp [outflowTo, hga]
    · rw [if_neg hcut]
      have h0 : g.stakeAmount * g.players.length / 100 = 0 := by omega
      by_cases hga : g.gamemaster = a
      · simp [outflowTo, hga, h0]
      · simp [outflowTo, hga, h0]

/-- Witness for C10: on the two-player sample game (pool 2000), the
never-joined address 7 listed twice receives 990 twice. -/
theorem C10_payout_unchecked_winners_witness :
    outflowTo 7 trTwo =
      (if gTwo.gamemaster = 7 then
        gTwo.stakeAmount * gTwo.players.length / 100 else 0) +
      ((gTwo.stakeAmount * gTwo.players.length -
        gTwo.stakeAmount * gTwo.players.length / 100) /
        ([7, 7] : List Nat).length) * ([7, 7] : List Nat).count 7 :=
  (C10_payout_unchecked_winners gTwo 2 [7, 7]).2 gTwoPaid trTwo (by rfl) 7

end VerifiableGame
